import Mathlib

/-!
# Verification of the Snake game engine (`SnakeGamePython/Snake.py`)

Shallow embedding of the game-state logic of the `SnakeGame` class.
Coordinates are pixel coordinates on the canvas, exactly as in the source:
each grid cell is `GRID_SIZE = 20` pixels, the canvas is `WIDTH × HEIGHT =
600 × 400` pixels.  The snake is the ordered list of its cells, head first
(index 0), mirroring the `collections.deque` of the source where
`appendleft` pushes a new head and `pop` removes the tail.

Randomness of `random.randint` in `place_food` is modelled by an explicit
stream of proposed grid positions (`Nat → Fin 30 × Fin 20`, the exact
ranges of the two `randint` calls), and the unbounded `while True` loop is
modelled with explicit fuel, returning `none` when the fuel is exhausted
before an unoccupied cell is proposed.
-/

/-- `GRID_SIZE = 20`: size of each cell in pixels. -/
def GRID_SIZE : Int := 20

/-- `WIDTH = 600`: canvas width in pixels. -/
def WIDTH : Int := 600

/-- `HEIGHT = 400`: canvas height in pixels. -/
def HEIGHT : Int := 400

/-- A cell: an `(x, y)` pixel position, as the `(x, y)` tuples of the source. -/
abbrev Cell := Int × Int

/-- The four movement directions, the values `'Up'`, `'Down'`, `'Left'`,
`'Right'` that the source stores in `self.direction`. -/
inductive Direction where
  | Up
  | Down
  | Left
  | Right
deriving DecidableEq, Repr

/-- The mutable game state of the `SnakeGame` class: the fields
`self.snake`, `self.food`, `self.direction`, `self.score`,
`self.game_over_state`, `self.game_running`. -/
structure GameState where
  snake : List Cell
  food : Cell
  direction : Direction
  score : Nat
  game_over_state : Bool
  game_running : Bool
deriving DecidableEq, Repr

/-- A random proposal of `place_food`: the pair
`(random.randint(0, WIDTH//GRID_SIZE - 1), random.randint(0, HEIGHT//GRID_SIZE - 1))`,
i.e. a column in `[0, 30)` and a row in `[0, 20)`. -/
abbrev RandPos := Fin 30 × Fin 20

/-- Scale a random grid position to a pixel cell, the `* GRID_SIZE` of
`place_food`. -/
def toCell (p : RandPos) : Cell := ((p.1 : Int) * GRID_SIZE, (p.2 : Int) * GRID_SIZE)

/-- `place_food`: rejection-sample positions from the stream until one is
not on the snake (`new_food_pos not in self.snake`).  The source's
`while True` loop is given explicit `fuel`; `none` means the loop has not
terminated within `fuel` iterations. -/
def place_food : Nat → (Nat → RandPos) → List Cell → Option Cell
  | 0, _, _ => none
  | fuel + 1, stream, snake =>
      let pos := toCell (stream 0)
      if pos ∈ snake then place_food fuel (fun n => stream (n + 1)) snake
      else some pos

/-- The initial head x-coordinate of `reset_game`:
`(WIDTH // 2 // GRID_SIZE) * GRID_SIZE`. -/
def head_x : Int := WIDTH / 2 / GRID_SIZE * GRID_SIZE

/-- The initial head y-coordinate of `reset_game`:
`(HEIGHT // 2 // GRID_SIZE) * GRID_SIZE`. -/
def head_y : Int := HEIGHT / 2 / GRID_SIZE * GRID_SIZE

/-- The initial snake of `reset_game`:
`for i in range(3): self.snake.appendleft((head_x - i * GRID_SIZE, head_y))`.
Each `appendleft` prepends, so the fold prepends the cell for `i` to the
accumulated deque. -/
def initSnake : List Cell :=
  (List.range 3).foldl (fun acc i => (head_x - (i : Int) * GRID_SIZE, head_y) :: acc) []

/-- `reset_game`: clear the snake and rebuild it, direction `Right`,
score 0, `game_over_state = False`, `game_running = False` (the loop is
cancelled when running, and it is never running at the end of a reset),
then `place_food`. -/
def reset_game (fuel : Nat) (stream : Nat → RandPos) : Option GameState :=
  match place_food fuel stream initSnake with
  | some f =>
      some { snake := initSnake, food := f, direction := Direction.Right,
             score := 0, game_over_state := false, game_running := false }
  | none => none

/-- `start_game`: if not running, set `game_running = True` and
`game_over_state = False`; otherwise do nothing. -/
def start_game (s : GameState) : GameState :=
  if s.game_running = false then
    { s with game_running := true, game_over_state := false }
  else s

/-- The new head of `move_snake`: the current head shifted one
`GRID_SIZE` step in the current direction. -/
def newHead (d : Direction) (h : Cell) : Cell :=
  match d with
  | Direction.Up => (h.1, h.2 - GRID_SIZE)
  | Direction.Down => (h.1, h.2 + GRID_SIZE)
  | Direction.Left => (h.1 - GRID_SIZE, h.2)
  | Direction.Right => (h.1 + GRID_SIZE, h.2)

/-- `check_collisions`: wall collision when the head is outside
`[0, WIDTH) × [0, HEIGHT)`, self-collision when the head is in
`list(self.snake)[1:]` (the body without its first element). -/
def check_collisions (head : Cell) (snake : List Cell) : Bool :=
  if ¬ (0 ≤ head.1 ∧ head.1 < WIDTH ∧ 0 ≤ head.2 ∧ head.2 < HEIGHT) then true
  else if head ∈ snake.drop 1 then true
  else false

/-- `move_snake` (one tick): no-op if game over or not running; otherwise
compute the new head, end the game on collision (`game_over` sets
`game_over_state = True`, `game_running = False`), else push the new head
with `appendleft`; on eating the food increment the score and `place_food`
(`none` when its loop does not terminate within `fuel`), otherwise `pop`
the tail. -/
def move_snake (fuel : Nat) (stream : Nat → RandPos) (s : GameState) :
    Option GameState :=
  if s.game_over_state = true ∨ s.game_running = false then some s
  else
    let nh := newHead s.direction s.snake.headI
    if check_collisions nh s.snake then
      some { s with game_over_state := true, game_running := false }
    else
      let snake1 := nh :: s.snake
      if nh = s.food then
        match place_food fuel stream snake1 with
        | some f => some { s with snake := snake1, food := f, score := s.score + 1 }
        | none => none
      else
        some { s with snake := snake1.dropLast }

/-- The direction opposite to a given one; reversal into it is what
`change_direction` silently drops. -/
def opposite (d : Direction) : Direction :=
  match d with
  | Direction.Up => Direction.Down
  | Direction.Down => Direction.Up
  | Direction.Left => Direction.Right
  | Direction.Right => Direction.Left

/-- `change_direction`: no-op if game over or not running; otherwise set
the direction to the request unless the request is the exact opposite of
the current direction. -/
def change_direction (nd : Direction) (s : GameState) : GameState :=
  if s.game_over_state = true ∨ s.game_running = false then s
  else if nd = Direction.Left ∧ s.direction ≠ Direction.Right then { s with direction := nd }
  else if nd = Direction.Right ∧ s.direction ≠ Direction.Left then { s with direction := nd }
  else if nd = Direction.Up ∧ s.direction ≠ Direction.Down then { s with direction := nd }
  else if nd = Direction.Down ∧ s.direction ≠ Direction.Up then { s with direction := nd }
  else s

/-- The states reachable from a `reset_game` by any sequence of
`start_game`, `change_direction` and `move_snake` calls (a later
`reset_game` re-enters the base case). -/
inductive Reachable : GameState → Prop where
  | reset : ∀ (fuel : Nat) (stream : Nat → RandPos) (s : GameState),
      reset_game fuel stream = some s → Reachable s
  | start : ∀ s : GameState, Reachable s → Reachable (start_game s)
  | setDir : ∀ (s : GameState) (d : Direction),
      Reachable s → Reachable (change_direction d s)
  | tick : ∀ (s : GameState) (fuel : Nat) (stream : Nat → RandPos) (s' : GameState),
      Reachable s → move_snake fuel stream s = some s' → Reachable s'

/-- The state invariant: the food is never on the snake and the snake has
no duplicate cells. -/
def StateInv (s : GameState) : Prop := s.food ∉ s.snake ∧ s.snake.Nodup

/-- Termination of `place_food` on a given stream and snake: some amount
of fuel suffices for the loop to select a cell. -/
def place_food_halts (stream : Nat → RandPos) (snake : List Cell) : Prop :=
  ∃ fuel c, place_food fuel stream snake = some c

/-- A concrete random stream that always proposes the top-left grid cell. -/
def constStream : Nat → RandPos := fun _ => (0, 0)

/-- The state `reset_game` produces when the stream is `constStream`. -/
def sReset : GameState :=
  { snake := [((260 : Int), (200 : Int)), (280, 200), (300, 200)], food := (0, 0),
    direction := Direction.Right, score := 0, game_over_state := false,
    game_running := false }

/-- `sReset` after `start_game`. -/
def sRun : GameState := { sReset with game_running := true }

/-- `sRun` after its first (self-colliding) tick. -/
def sDead : GameState := { sRun with game_over_state := true, game_running := false }

/-- `sRun` redirected upward: its next tick is an ordinary step. -/
def sUp : GameState := { sRun with direction := Direction.Up }

/-- `sUp` after one non-eating tick: new head pushed, tail dropped. -/
def sUpStepped : GameState :=
  { sUp with snake := [((260 : Int), (180 : Int)), (260, 200), (280, 200)] }

example : initSnake = [((260 : Int), (200 : Int)), (280, 200), (300, 200)] := by decide

example : reset_game 1 constStream = some sReset := by decide

example : start_game sReset = sRun := by decide

example : move_snake 1 constStream sRun = some sDead := by decide

example : move_snake 1 constStream sUp = some sUpStepped := by decide

example : place_food 1 (fun _ => ((0 : Fin 30), (0 : Fin 20))) initSnake =
    some ((0 : Int), (0 : Int)) := by decide

/-- Any cell `place_food` proposes is inside `[0, WIDTH) × [0, HEIGHT)`:
the two `randint` calls range over `[0, 30)` and `[0, 20)`. -/
lemma toCell_bounds (p : RandPos) :
    0 ≤ (toCell p).1 ∧ (toCell p).1 < WIDTH ∧ 0 ≤ (toCell p).2 ∧ (toCell p).2 < HEIGHT := by
  obtain ⟨i, j⟩ := p
  have hi : (i : Nat) < 30 := i.isLt
  have hj : (j : Nat) < 20 := j.isLt
  simp only [toCell, WIDTH, HEIGHT, GRID_SIZE]
  omega

/-- Soundness of `place_food`: whatever cell it returns is not on the
snake and is inside the grid. -/
lemma place_food_sound :
    ∀ (fuel : Nat) (stream : Nat → RandPos) (snake : List Cell) (c : Cell),
      place_food fuel stream snake = some c →
      c ∉ snake ∧ 0 ≤ c.1 ∧ c.1 < WIDTH ∧ 0 ≤ c.2 ∧ c.2 < HEIGHT := by
  intro fuel
  induction fuel with
  | zero => intro stream snake c h; simp [place_food] at h
  | succ n ih =>
      intro stream snake c h
      simp only [place_food] at h
      split at h
      · exact ih _ _ _ h
      · obtain rfl : toCell (stream 0) = c := by simpa using h
        exact ⟨by assumption, toCell_bounds _⟩

/-- If the stream proposes a free cell at index `k`, `place_food`
succeeds with fuel `k + 1`. -/
lemma place_food_succeeds :
    ∀ (k : Nat) (stream : Nat → RandPos) (snake : List Cell),
      toCell (stream k) ∉ snake →
      ∃ c, place_food (k + 1) stream snake = some c := by
  intro k
  induction k with
  | zero =>
      intro stream snake hfree
      refine ⟨toCell (stream 0), ?_⟩
      simp only [place_food]
      rw [if_neg hfree]
  | succ m ih =>
      intro stream snake hfree
      by_cases hmem : toCell (stream 0) ∈ snake
      · obtain ⟨c, hc⟩ := ih (fun n => stream (n + 1)) snake hfree
        refine ⟨c, ?_⟩
        show place_food (m + 1 + 1) stream snake = some c
        simp only [place_food]
        rw [if_pos hmem]
        exact hc
      · refine ⟨toCell (stream 0), ?_⟩
        show place_food (m + 1 + 1) stream snake = some (toCell (stream 0))
        simp only [place_food]
        rw [if_neg hmem]

/-- Moving one step always lands on a different cell than the one moved
from. -/
lemma newHead_ne (d : Direction) (h : Cell) : newHead d h ≠ h := by
  cases d <;> simp [newHead, GRID_SIZE, Prod.ext_iff]

/-- A cell distinct from the first element and absent from the rest of a
list is absent from the whole list. -/
lemma not_mem_of_ne_headI {x : Cell} {l : List Cell}
    (h1 : x ≠ l.headI) (h2 : x ∉ l.drop 1) : x ∉ l := by
  cases l with
  | nil => simp
  | cons a t =>
      simp only [List.headI] at h1
      simp only [List.drop_one, List.tail_cons] at h2
      simp [h1, h2]

/-- Membership in the full list and in its tail agree for a cell distinct
from the first element. -/
lemma mem_iff_mem_drop_one {x : Cell} {l : List Cell} (h1 : x ≠ l.headI) :
    x ∈ l ↔ x ∈ l.drop 1 := by
  cases l with
  | nil => simp
  | cons a t => simp [List.headI] at h1 ⊢; simp [h1]

/-- `check_collisions` answers `false` exactly when the head is inside
the grid and not in the body without its first element. -/
lemma check_collisions_false {head : Cell} {snake : List Cell} :
    check_collisions head snake = false ↔
      (0 ≤ head.1 ∧ head.1 < WIDTH ∧ 0 ≤ head.2 ∧ head.2 < HEIGHT) ∧
        head ∉ snake.drop 1 := by
  unfold check_collisions
  split_ifs with h1 h2 <;> simp_all

/-- `check_collisions` answers `true` exactly when the head is outside
the grid or in the body without its first element. -/
lemma check_collisions_true {head : Cell} {snake : List Cell} :
    check_collisions head snake = true ↔
      ¬ (0 ≤ head.1 ∧ head.1 < WIDTH ∧ 0 ≤ head.2 ∧ head.2 < HEIGHT) ∨
        head ∈ snake.drop 1 := by
  unfold check_collisions
  split_ifs with h1 h2 <;> simp_all

/-- `move_snake` when the game is over or not running: identity. -/
lemma move_snake_idle (s : GameState) (fuel : Nat) (stream : Nat → RandPos)
    (h : s.game_over_state = true ∨ s.game_running = false) :
    move_snake fuel stream s = some s := by
  simp only [move_snake]
  rw [if_pos h]

/-- `move_snake` on a collision: only the two flags change. -/
lemma move_snake_collide (s : GameState) (fuel : Nat) (stream : Nat → RandPos)
    (h1 : s.game_over_state = false) (h2 : s.game_running = true)
    (hc : check_collisions (newHead s.direction s.snake.headI) s.snake = true) :
    move_snake fuel stream s =
      some { s with game_over_state := true, game_running := false } := by
  simp [move_snake, h1, h2, hc]

/-- `move_snake` when the new head lands on the food and `place_food`
returns a cell: the snake grows by the new head, the score increments,
the food moves. -/
lemma move_snake_eat (s : GameState) (fuel : Nat) (stream : Nat → RandPos)
    (f : Cell)
    (h1 : s.game_over_state = false) (h2 : s.game_running = true)
    (hc : check_collisions (newHead s.direction s.snake.headI) s.snake = false)
    (he : newHead s.direction s.snake.headI = s.food)
    (hp : place_food fuel stream (newHead s.direction s.snake.headI :: s.snake) = some f) :
    move_snake fuel stream s =
      some { s with snake := newHead s.direction s.snake.headI :: s.snake,
                    food := f, score := s.score + 1 } := by
  simp [move_snake, h1, h2, hc, ← he, hp]

/-- `move_snake` when the new head lands on the food but `place_food`
runs out of fuel: the modelled tick is undefined. -/
lemma move_snake_eat_none (s : GameState) (fuel : Nat) (stream : Nat → RandPos)
    (h1 : s.game_over_state = false) (h2 : s.game_running = true)
    (hc : check_collisions (newHead s.direction s.snake.headI) s.snake = false)
    (he : newHead s.direction s.snake.headI = s.food)
    (hp : place_food fuel stream (newHead s.direction s.snake.headI :: s.snake) = none) :
    move_snake fuel stream s = none := by
  simp [move_snake, h1, h2, hc, ← he, hp]

/-- `move_snake` on an ordinary step: push the new head, drop the tail. -/
lemma move_snake_step (s : GameState) (fuel : Nat) (stream : Nat → RandPos)
    (h1 : s.game_over_state = false) (h2 : s.game_running = true)
    (hc : check_collisions (newHead s.direction s.snake.headI) s.snake = false)
    (he : newHead s.direction s.snake.headI ≠ s.food) :
    move_snake fuel stream s =
      some { s with snake := (newHead s.direction s.snake.headI :: s.snake).dropLast } := by
  simp [move_snake, h1, h2, hc, he]

/-- A non-colliding new head is on no cell of the pre-move snake. -/
lemma newHead_not_mem (s : GameState)
    (hc : check_collisions (newHead s.direction s.snake.headI) s.snake = false) :
    newHead s.direction s.snake.headI ∉ s.snake :=
  not_mem_of_ne_headI (newHead_ne _ _) (check_collisions_false.mp hc).2

/-- `reset_game` establishes the invariant. -/
lemma inv_reset (fuel : Nat) (stream : Nat → RandPos) (s : GameState)
    (h : reset_game fuel stream = some s) : StateInv s := by
  simp only [reset_game] at h
  split at h
  · obtain rfl : _ = s := by simpa using h
    refine ⟨(place_food_sound _ _ _ _ (by assumption)).1, ?_⟩
    show initSnake.Nodup
    decide
  · simp at h

/-- `start_game` preserves the invariant (it only touches the flags). -/
lemma inv_start (s : GameState) (h : StateInv s) : StateInv (start_game s) := by
  simp only [start_game]
  split <;> exact h

/-- `change_direction` preserves the invariant (it only touches the
direction). -/
lemma inv_setDir (d : Direction) (s : GameState) (h : StateInv s) :
    StateInv (change_direction d s) := by
  simp only [change_direction]
  split
  · exact h
  · split
    · exact h
    · split
      · exact h
      · split
        · exact h
        · split <;> exact h

/-- `move_snake` preserves the invariant. -/
lemma inv_tick (s : GameState) (fuel : Nat) (stream : Nat → RandPos)
    (s' : GameState) (hinv : StateInv s) (h : move_snake fuel stream s = some s') :
    StateInv s' := by
  by_cases h0 : s.game_over_state = true ∨ s.game_running = false
  · rw [move_snake_idle s fuel stream h0] at h
    obtain rfl : s = s' := by simpa using h
    exact hinv
  · push_neg at h0
    obtain ⟨h1, h2⟩ := h0
    replace h1 : s.game_over_state = false := by simpa using h1
    replace h2 : s.game_running = true := by simpa using h2
    cases hc : check_collisions (newHead s.direction s.snake.headI) s.snake with
    | true =>
        rw [move_snake_collide s fuel stream h1 h2 hc] at h
        obtain rfl : _ = s' := by simpa using h
        exact hinv
    | false =>
        have hnh := newHead_not_mem s hc
        by_cases he : newHead s.direction s.snake.headI = s.food
        · cases hp : place_food fuel stream (newHead s.direction s.snake.headI :: s.snake) with
          | none => rw [move_snake_eat_none s fuel stream h1 h2 hc he hp] at h; simp at h
          | some f =>
              rw [move_snake_eat s fuel stream f h1 h2 hc he hp] at h
              obtain rfl : _ = s' := by simpa using h
              exact ⟨(place_food_sound _ _ _ _ hp).1, List.Nodup.cons hnh hinv.2⟩
        · rw [move_snake_step s fuel stream h1 h2 hc he] at h
          obtain rfl : _ = s' := by simpa using h
          constructor
          · intro hmem
            have hsub : s.food ∈ newHead s.direction s.snake.headI :: s.snake :=
              (List.dropLast_sublist _).mem hmem
            rcases List.mem_cons.mp hsub with heq | hmem2
            · exact he heq.symm
            · exact hinv.1 hmem2
          · exact (List.dropLast_sublist _).nodup (List.Nodup.cons hnh hinv.2)

/-- Every reachable state satisfies the invariant. -/
lemma reachable_inv (s : GameState) (h : Reachable s) : StateInv s := by
  induction h with
  | reset fuel stream s hr => exact inv_reset fuel stream s hr
  | start s _ ih => exact inv_start s ih
  | setDir s d _ ih => exact inv_setDir d s ih
  | tick s fuel stream s' _ ht ih => exact inv_tick s fuel stream s' ih ht

/-- What `reset_game` determines about the resulting state: every field
except the food, and how the food was produced. -/
lemma reset_game_eq (fuel : Nat) (stream : Nat → RandPos) (s : GameState)
    (h : reset_game fuel stream = some s) :
    s.snake = initSnake ∧ s.direction = Direction.Right ∧ s.score = 0 ∧
    s.game_over_state = false ∧ s.game_running = false ∧
    place_food fuel stream initSnake = some s.food := by
  simp only [reset_game] at h
  split at h
  · obtain rfl : _ = s := by simpa using h
    exact ⟨rfl, rfl, rfl, rfl, rfl, by assumption⟩
  · simp at h

/-- C1: after `reset_game` the snake is three horizontally consecutive
cells, direction `Right`, score 0, not over, not running — but the head
(the first element of the sequence) is `(260, 200)`, two cells LEFT of
the grid center `(head_x, head_y) = (300, 200)`, with the two remaining
segments to its right; the spec places the head at the center with the
segments to its left, so the code's ordering is a slip
(`appendleft` where `append` was needed). -/
theorem reset_head_not_center (fuel : Nat) (stream : Nat → RandPos) (s : GameState)
    (h : reset_game fuel stream = some s) :
    s.snake = [((260 : Int), (200 : Int)), (280, 200), (300, 200)] ∧
    s.snake.headI = (260, 200) ∧
    s.snake.headI ≠ (head_x, head_y) ∧
    (head_x, head_y) = ((300 : Int), (200 : Int)) ∧
    s.direction = Direction.Right ∧ s.score = 0 ∧
    s.game_over_state = false ∧ s.game_running = false := by
  obtain ⟨hsn, hdir, hsc, hov, hrn, -⟩ := reset_game_eq fuel stream s h
  rw [hsn]
  exact ⟨by decide, by decide, by decide, by decide, hdir, hsc, hov, hrn⟩

/-- Witness for C1 at the concrete reset state produced by `constStream`. -/
theorem reset_head_not_center_witness :
    sReset.snake.headI = ((260 : Int), (200 : Int)) ∧
    sReset.snake.headI ≠ (head_x, head_y) := by
  have h := reset_head_not_center 1 constStream sReset (by decide)
  exact ⟨h.2.1, h.2.2.1⟩

/-- C2: starting from any reset state, `start_game` followed by one
`move_snake` ends the game: the new head one step Right of the first cell
equals the second cell of the stored sequence, so the tick reports a
self-collision, sets the game-over flag, clears the running flag, and
leaves the score at 0 and the snake unchanged. -/
theorem first_tick_game_over (fuel fuel2 : Nat) (stream stream2 : Nat → RandPos)
    (s s2 : GameState)
    (hr : reset_game fuel stream = some s)
    (ht : move_snake fuel2 stream2 (start_game s) = some s2) :
    newHead (start_game s).direction (start_game s).snake.headI =
      ((start_game s).snake.drop 1).headI ∧
    s2.game_over_state = true ∧ s2.game_running = false ∧
    s2.score = 0 ∧ s2.snake = s.snake := by
  obtain ⟨hsn, hdir, hsc, hov, hrn, -⟩ := reset_game_eq fuel stream s hr
  have hstart : start_game s = { s with game_running := true, game_over_state := false } := by
    simp [start_game, hrn]
  rw [hstart] at ht ⊢
  have hc : check_collisions
      (newHead ({ s with game_running := true,
                         game_over_state := false } : GameState).direction
        ({ s with game_running := true,
                  game_over_state := false } : GameState).snake.headI)
      ({ s with game_running := true,
                game_over_state := false } : GameState).snake = true := by
    show check_collisions (newHead s.direction s.snake.headI) s.snake = true
    rw [hdir, hsn]
    decide
  rw [move_snake_collide _ fuel2 stream2 rfl rfl hc] at ht
  obtain rfl : _ = s2 := by simpa using ht
  refine ⟨?_, rfl, rfl, hsc, rfl⟩
  show newHead s.direction s.snake.headI = (s.snake.drop 1).headI
  rw [hdir, hsn]
  decide

/-- Witness for C2 with the concrete stream `constStream`. -/
theorem first_tick_game_over_witness :
    newHead (start_game sReset).direction (start_game sReset).snake.headI =
      ((start_game sReset).snake.drop 1).headI ∧
    sDead.game_over_state = true ∧ sDead.game_running = false ∧
    sDead.score = 0 ∧ sDead.snake = sReset.snake :=
  first_tick_game_over 1 1 constStream constStream sReset sDead (by decide) (by decide)

/-- C3: a tick taken while running and not over ends the game exactly
when the new head — the current head offset one grid step in the current
direction — is outside `[0, WIDTH) × [0, HEIGHT)` or lies on some cell of
the full pre-move snake (head and tail included; the code checks
`list(self.snake)[1:]`, which agrees with the full body because the new
head never equals the old head). -/
theorem tick_collision_iff (s : GameState) (fuel : Nat) (stream : Nat → RandPos)
    (s2 : GameState)
    (hrun : s.game_running = true) (hover : s.game_over_state = false)
    (ht : move_snake fuel stream s = some s2) :
    (s2.game_over_state = true ∧ s2.game_running = false) ↔
      (¬ (0 ≤ (newHead s.direction s.snake.headI).1 ∧
            (newHead s.direction s.snake.headI).1 < WIDTH ∧
            0 ≤ (newHead s.direction s.snake.headI).2 ∧
            (newHead s.direction s.snake.headI).2 < HEIGHT) ∨
        newHead s.direction s.snake.headI ∈ s.snake) := by
  have hmemiff := mem_iff_mem_drop_one
    (x := newHead s.direction s.snake.headI) (l := s.snake) (newHead_ne _ _)
  cases hc : check_collisions (newHead s.direction s.snake.headI) s.snake with
  | true =>
      rw [move_snake_collide s fuel stream hover hrun hc] at ht
      obtain rfl : _ = s2 := by simpa using ht
      refine iff_of_true ⟨rfl, rfl⟩ ?_
      rcases check_collisions_true.mp hc with hb | hm
      · exact Or.inl hb
      · exact Or.inr (hmemiff.mpr hm)
  | false =>
      have hfalse := check_collisions_false.mp hc
      have hne2 : s2.game_over_state = false := by
        by_cases he : newHead s.direction s.snake.headI = s.food
        · cases hp : place_food fuel stream (newHead s.direction s.snake.headI :: s.snake) with
          | none =>
              rw [move_snake_eat_none s fuel stream hover hrun hc he hp] at ht
              simp at ht
          | some f =>
              rw [move_snake_eat s fuel stream f hover hrun hc he hp] at ht
              obtain rfl : _ = s2 := by simpa using ht
              exact hover
        · rw [move_snake_step s fuel stream hover hrun hc he] at ht
          obtain rfl : _ = s2 := by simpa using ht
          exact hover
      refine iff_of_false (fun hco => by rw [hne2] at hco; simp at hco) ?_
      intro hrhs
      rcases hrhs with hb | hm
      · exact hb hfalse.1
      · exact hfalse.2 (hmemiff.mp hm)

/-- Witness for C3 at the colliding concrete state `sRun`. -/
theorem tick_collision_iff_witness :
    (sDead.game_over_state = true ∧ sDead.game_running = false) ↔
      (¬ (0 ≤ (newHead sRun.direction sRun.snake.headI).1 ∧
            (newHead sRun.direction sRun.snake.headI).1 < WIDTH ∧
            0 ≤ (newHead sRun.direction sRun.snake.headI).2 ∧
            (newHead sRun.direction sRun.snake.headI).2 < HEIGHT) ∨
        newHead sRun.direction sRun.snake.headI ∈ sRun.snake) :=
  tick_collision_iff sRun 1 constStream sDead rfl rfl (by decide)

/-- C4: on a non-colliding tick taken while running and not over, the
score and the snake length each grow by exactly 1 precisely when the new
head equals the pre-tick food cell; otherwise both are unchanged. -/
theorem tick_growth_law (s : GameState) (fuel : Nat) (stream : Nat → RandPos)
    (s2 : GameState)
    (hrun : s.game_running = true) (hover : s.game_over_state = false)
    (hc : check_collisions (newHead s.direction s.snake.headI) s.snake = false)
    (ht : move_snake fuel stream s = some s2) :
    ((s2.score = s.score + 1 ∧ s2.snake.length = s.snake.length + 1) ↔
      newHead s.direction s.snake.headI = s.food) ∧
    (newHead s.direction s.snake.headI ≠ s.food →
      s2.score = s.score ∧ s2.snake.length = s.snake.length) := by
  by_cases he : newHead s.direction s.snake.headI = s.food
  · cases hp : place_food fuel stream (newHead s.direction s.snake.headI :: s.snake) with
    | none =>
        rw [move_snake_eat_none s fuel stream hover hrun hc he hp] at ht
        simp at ht
    | some f =>
        rw [move_snake_eat s fuel stream f hover hrun hc he hp] at ht
        obtain rfl : _ = s2 := by simpa using ht
        exact ⟨iff_of_true ⟨rfl, by simp⟩ he, fun hne => absurd he hne⟩
  · rw [move_snake_step s fuel stream hover hrun hc he] at ht
    obtain rfl : _ = s2 := by simpa using ht
    have hlen : ((newHead s.direction s.snake.headI :: s.snake).dropLast).length =
        s.snake.length := by
      simp [List.length_dropLast]
    refine ⟨iff_of_false ?_ he, fun _ => ⟨rfl, hlen⟩⟩
    intro hcon
    have h1 : s.score = s.score + 1 := hcon.1
    omega

/-- Witness for C4 at the concrete non-colliding, non-eating state `sUp`. -/
theorem tick_growth_law_witness :
    ((sUpStepped.score = sUp.score + 1 ∧
        sUpStepped.snake.length = sUp.snake.length + 1) ↔
      newHead sUp.direction sUp.snake.headI = sUp.food) ∧
    (newHead sUp.direction sUp.snake.headI ≠ sUp.food →
      sUpStepped.score = sUp.score ∧ sUpStepped.snake.length = sUp.snake.length) :=
  tick_growth_law sUp 1 constStream sUpStepped rfl rfl (by decide) (by decide)

/-- C5: in every state reachable from a reset — in particular after every
`reset_game` and after every `move_snake` — the food cell is not on the
snake. -/
theorem food_not_on_snake (s : GameState) (h : Reachable s) : s.food ∉ s.snake :=
  (reachable_inv s h).1

/-- Witness for C5 at the concrete reachable state `sReset`. -/
theorem food_not_on_snake_witness : sReset.food ∉ sReset.snake :=
  food_not_on_snake sReset (Reachable.reset 1 constStream sReset (by decide))

/-- C6: in every state reachable from a reset via `start_game`,
`change_direction` and `move_snake`, the snake's cell sequence has no
duplicate cells. -/
theorem snake_nodup (s : GameState) (h : Reachable s) : s.snake.Nodup :=
  (reachable_inv s h).2

/-- Witness for C6 at the concrete reachable state `start_game sReset`. -/
theorem snake_nodup_witness : (start_game sReset).snake.Nodup :=
  snake_nodup (start_game sReset)
    (Reachable.start sReset (Reachable.reset 1 constStream sReset (by decide)))

/-- C7: while running and not over, requesting the exact opposite of the
current direction leaves the direction unchanged, and requesting the same
or a perpendicular direction sets the direction to the request; when over
or not running, `change_direction` changes no state at all. -/
theorem direction_change_law (s : GameState) (d : Direction) :
    (s.game_running = true → s.game_over_state = false →
      ((d = opposite s.direction → (change_direction d s).direction = s.direction) ∧
       (d ≠ opposite s.direction → (change_direction d s).direction = d))) ∧
    (s.game_over_state = true ∨ s.game_running = false →
      change_direction d s = s) := by
  constructor
  · intro hrun hover
    constructor
    · intro hop
      rw [hop]
      cases hd : s.direction <;>
        simp [change_direction, opposite, hrun, hover, hd]
    · intro hop
      cases hd : s.direction <;> cases d <;>
        first
          | (simp [change_direction, opposite, hrun, hover, hd]; done)
          | (rw [hd] at hop; simp [opposite] at hop)
  · intro hcond
    simp [change_direction, hcond]

/-- Witness for C7: a perpendicular request while running, and a request
while not running. -/
theorem direction_change_law_witness :
    (change_direction Direction.Up sRun).direction = Direction.Up ∧
    change_direction Direction.Up sReset = sReset :=
  ⟨((direction_change_law sRun Direction.Up).1 rfl rfl).2 (by decide),
   (direction_change_law sReset Direction.Up).2 (Or.inr rfl)⟩

/-- C8: a tick that detects a collision sets the game-over flag, clears
the running flag, and leaves the snake, the food and the score exactly as
they were before the tick. -/
theorem collision_freezes_state (s : GameState) (fuel : Nat) (stream : Nat → RandPos)
    (hrun : s.game_running = true) (hover : s.game_over_state = false)
    (hc : check_collisions (newHead s.direction s.snake.headI) s.snake = true) :
    ∃ s2, move_snake fuel stream s = some s2 ∧ s2.game_over_state = true ∧
      s2.game_running = false ∧ s2.snake = s.snake ∧ s2.food = s.food ∧
      s2.score = s.score :=
  ⟨_, move_snake_collide s fuel stream hover hrun hc, rfl, rfl, rfl, rfl, rfl⟩

/-- Witness for C8 at the colliding concrete state `sRun`. -/
theorem collision_freezes_state_witness :
    ∃ s2, move_snake 1 constStream sRun = some s2 ∧ s2.game_over_state = true ∧
      s2.game_running = false ∧ s2.snake = sRun.snake ∧ s2.food = sRun.food ∧
      s2.score = sRun.score :=
  collision_freezes_state sRun 1 constStream rfl rfl (by decide)

/-- The rejection-sampling loop of `place_food` makes no progress when
every stream proposal is on the snake: with the constant top-left
proposal and a snake sitting on that cell, no amount of fuel succeeds. -/
lemma place_food_const_stuck :
    ∀ fuel : Nat,
      place_food fuel (fun _ => ((0 : Fin 30), (0 : Fin 20)))
        [((0 : Int), (0 : Int))] = none := by
  intro fuel
  induction fuel with
  | zero => rfl
  | succ n ih =>
      show place_food (n + 1) _ _ = none
      simp only [place_food]
      rw [if_pos (by decide)]
      exact ih

/-- C9 counterexample: `place_food` does not terminate for every snake
state and every possible run of the random generator — a generator that
keeps proposing an occupied cell loops forever. -/
theorem place_food_nontermination :
    ¬ place_food_halts (fun _ => ((0 : Fin 30), (0 : Fin 20)))
        [((0 : Int), (0 : Int))] := by
  rintro ⟨fuel, c, hc⟩
  rw [place_food_const_stuck fuel] at hc
  exact Option.noConfusion hc

/-- C9 amended: whenever the random stream eventually proposes a cell not
on the snake (which holds almost surely when some grid cell is free),
`place_food` terminates and the selected cell is inside
`[0, WIDTH) × [0, HEIGHT)` and not occupied by any snake segment. -/
theorem place_food_terminates_spec (stream : Nat → RandPos) (snake : List Cell)
    (k : Nat) (hfree : toCell (stream k) ∉ snake) :
    ∃ c, place_food (k + 1) stream snake = some c ∧ c ∉ snake ∧
      0 ≤ c.1 ∧ c.1 < WIDTH ∧ 0 ≤ c.2 ∧ c.2 < HEIGHT := by
  obtain ⟨c, hc⟩ := place_food_succeeds k stream snake hfree
  exact ⟨c, hc, place_food_sound _ _ _ _ hc⟩

/-- Witness for the amended C9 on the empty snake with `constStream`. -/
theorem place_food_terminates_spec_witness :
    ∃ c, place_food 1 constStream ([] : List Cell) = some c ∧
      c ∉ ([] : List Cell) ∧ 0 ≤ c.1 ∧ c.1 < WIDTH ∧ 0 ≤ c.2 ∧ c.2 < HEIGHT :=
  place_food_terminates_spec constStream [] 0 (by decide)

/-- C10: when the game is over or not running, a tick is a no-op — it
returns the state itself, every component unchanged. -/
theorem tick_noop_when_idle (s : GameState) (fuel : Nat) (stream : Nat → RandPos)
    (h : s.game_over_state = true ∨ s.game_running = false) :
    move_snake fuel stream s = some s :=
  move_snake_idle s fuel stream h

/-- Witness for C10 at the concrete not-running state `sReset`. -/
theorem tick_noop_when_idle_witness :
    move_snake 1 constStream sReset = some sReset :=
  tick_noop_when_idle sReset 1 constStream (Or.inr rfl)
